import Mathlib

/-!
Verification of the Iris fetch service core against its specification.

The definitions below are a shallow embedding of the Python sources under
src/iris: the request/response data model (schemas.py), the cache key
(cache.py), error classification and the retry loop (fetcher.py), the
fetch pipeline (routes/fetch.py), the robots.txt handler
(robots_handler.py) and structured-data extraction.  Stateful or
effectful code is embedded as explicit state passing plus an event trace;
machine integers are Nat with explicit reduction mod 2^32 where the
source relies on 32-bit wraparound (SHA-256).
-/

namespace Iris

/-- Wait strategies for dynamic content (schemas.py, WaitStrategy). -/
inductive WaitStrategy
  | load
  | networkidle
  | selector
  | timeout
  | domcontentloaded
deriving DecidableEq, Repr

/-- Classification of fetch errors (schemas.py, FetchErrorType). -/
inductive FetchErrorType
  | timeout
  | dns_error
  | connection_error
  | ssl_error
  | blocked_by_robots_txt
  | rate_limited
  | unsupported_content_type
  | invalid_url
  | http_error
  | content_too_large
  | browser_error
deriving DecidableEq, Repr

/-- Structured error information for fetch failures (schemas.py, FetchError). -/
structure FetchError where
  type : FetchErrorType
  message : String
  retryable : Bool
  http_status : Option Nat := none
deriving DecidableEq, Repr

/-- Request to fetch a web page (schemas.py, FetchRequest).
Defaults mirror the pydantic field defaults. -/
structure FetchRequest where
  url : String
  wait_for_selector : Option String := none
  wait_after_load_ms : Option Nat := none
  wait_strategy : WaitStrategy := WaitStrategy.load
  extract_text : Bool := true
  extract_links : Bool := false
  extract_metadata : Bool := true
  screenshot : Bool := false
  timeout_ms : Option Nat := none
  cache : Bool := true
  headers : Option (List (String × String)) := none
deriving DecidableEq, Repr

/-- Extracted page metadata (schemas.py, PageMetadata). -/
structure PageMetadata where
  title : Option String := none
  description : Option String := none
  og_title : Option String := none
  og_description : Option String := none
  og_image : Option String := none
  language : Option String := none
  canonical_url : Option String := none
  author : Option String := none
  published_date : Option String := none
  pdf_pages : Option Nat := none
  pdf_author : Option String := none
deriving DecidableEq, Repr

/-- A link extracted from a page (schemas.py, ExtractedLink). -/
structure ExtractedLink where
  url : String
  text : String
  is_external : Bool
deriving DecidableEq, Repr

/-- JSON values, used for JSON-LD blocks in structured data. -/
inductive Json
  | str (s : String)
  | num (n : Int)
  | bool (b : Bool)
  | null
  | arr (l : List Json)
  | obj (o : List (String × Json))

/-- Structured data extracted from a page (schemas.py, StructuredData). -/
structure StructuredData where
  json_ld : Option (List Json) := none
  schema_org_types : Option (List String) := none

/-- Result of PDF text extraction (schemas.py, PdfResult). -/
structure PdfResult where
  text : String
  pages : Nat
  title : Option String := none
  author : Option String := none
  created_date : Option String := none

/-- Response from a page fetch operation (schemas.py, FetchResponse). -/
structure FetchResponse where
  url : String
  status_code : Nat
  content_text : Option String := none
  content_html : Option String := none
  metadata : Option PageMetadata := none
  links : Option (List ExtractedLink) := none
  screenshot_base64 : Option String := none
  structured_data : Option StructuredData := none
  content_length : Nat := 0
  fetch_time_ms : Nat := 0
  cached : Bool := false
  error : Option FetchError := none

/-- Raw result from a page fetch before content extraction
(fetcher.py, FetchResult).  Byte payloads are lists of byte values. -/
structure FetchResult where
  url : String
  status_code : Nat
  html : String
  screenshot_bytes : Option (List Nat) := none
  error : Option FetchError := none
  fetch_time_ms : Nat := 0
  content_type : String := "text/html"
  raw_bytes : Option (List Nat) := none

/-! ## String ordering

Python compares strings by code point; Lean's builtin String order does
not reduce in the kernel, so the comparison is defined directly on the
character lists. -/

/-- Strict lexicographic order on code-point lists (Python string <). -/
def lexLt : List Char → List Char → Bool
  | [], [] => false
  | [], _ :: _ => true
  | _ :: _, [] => false
  | a :: as, b :: bs =>
    if a.toNat < b.toNat then true
    else if b.toNat < a.toNat then false
    else lexLt as bs

/-- Strict order on strings, by code points as in Python. -/
def strLt (a b : String) : Bool := lexLt a.data b.data

/-! ## Cache key (cache.py, make_cache_key)

`make_cache_key(url, **params)` sorts the keyword parameters, drops the
ones whose value is None, serializes `{"url": url, **filtered}` as
canonical JSON (`sort_keys=True`) and returns the SHA-256 hex digest. -/

/-- Values that occur among cache-key parameters: the fetch route passes
booleans; string and integer values are representable as well. -/
inductive CKValue
  | jstr (s : String)
  | jbool (b : Bool)
  | jnum (n : Int)
deriving DecidableEq, Repr

/-- Insert into a list already sorted by key (ascending, Python order). -/
def insKeySorted {α : Type} (key : α → String) (x : α) : List α → List α
  | [] => [x]
  | y :: ys =>
    if strLt (key y) (key x) then y :: insKeySorted key x ys
    else x :: y :: ys

/-- Sort a list ascending by a string key, as Python sorted() does for
dict items with distinct keys. -/
def sortByKey {α : Type} (key : α → String) (l : List α) : List α :=
  l.foldr (insKeySorted key) []

/-- Python dict insert-or-override for an association list. -/
def dictInsert (m : List (String × CKValue)) (kv : String × CKValue) :
    List (String × CKValue) :=
  if m.any (fun e => e.1 == kv.1) then
    m.map (fun e => if e.1 == kv.1 then (e.1, kv.2) else e)
  else m ++ [kv]

/-- Python `\x7b**base, **upd\x7d`: later entries override earlier ones. -/
def pyDictUpdate (base upd : List (String × CKValue)) : List (String × CKValue) :=
  upd.foldl dictInsert base

/-- Fixed-width lowercase hexadecimal rendering of `n % 16^w`. -/
def hexFixed : Nat → Nat → List Char
  | 0, _ => []
  | w + 1, n =>
    hexFixed w (n / 16) ++ ["0123456789abcdef".data.getD (n % 16) '0']

/-- JSON string escaping as json.dumps does with ensure_ascii=True:
quote and backslash are escaped, characters outside printable ASCII are
escaped as \u sequences (surrogate pairs above the BMP). -/
def escapeJsonChar (c : Char) : List Char :=
  if c = '"' then ['\\', '"']
  else if c = '\\' then ['\\', '\\']
  else if c.toNat < 0x20 ∨ 0x7f ≤ c.toNat then
    if c.toNat < 0x10000 then
      '\\' :: 'u' :: hexFixed 4 c.toNat
    else
      let m := c.toNat - 0x10000
      ('\\' :: 'u' :: hexFixed 4 (0xd800 + m / 0x400)) ++
        ('\\' :: 'u' :: hexFixed 4 (0xdc00 + m % 0x400))
  else [c]

/-- json.dumps rendering of a string literal. -/
def dumpJsonStr (s : String) : String :=
  String.mk ('"' :: s.data.flatMap escapeJsonChar ++ ['"'])

/-- json.dumps rendering of a scalar cache-key value. -/
def dumpCKValue : CKValue → String
  | CKValue.jstr s => dumpJsonStr s
  | CKValue.jbool true => "true"
  | CKValue.jbool false => "false"
  | CKValue.jnum n => toString n

/-- json.dumps of a flat JSON object with sort_keys=True and the default
separators (", " and ": "). -/
def dumpsSorted (kvs : List (String × CKValue)) : String :=
  "\x7b" ++
    String.intercalate ", "
      ((sortByKey Prod.fst kvs).map
        (fun kv => dumpJsonStr kv.1 ++ ": " ++ dumpCKValue kv.2)) ++
  "\x7d"

/-- UTF-8 encoding of one unicode scalar value. -/
def utf8Char (c : Char) : List Nat :=
  let n := c.toNat
  if n < 0x80 then [n]
  else if n < 0x800 then [0xc0 + n / 64, 0x80 + n % 64]
  else if n < 0x10000 then
    [0xe0 + n / 4096, 0x80 + n / 64 % 64, 0x80 + n % 64]
  else
    [0xf0 + n / 262144, 0x80 + n / 4096 % 64, 0x80 + n / 64 % 64, 0x80 + n % 64]

/-- UTF-8 encoding of a string (Python str.encode()). -/
def utf8Bytes (s : String) : List Nat := s.data.flatMap utf8Char

/-! ### SHA-256 (hashlib.sha256, FIPS 180-4)

32-bit words are Nat values reduced mod 2^32. -/

/-- Rotate a 32-bit word right by n. -/
def rotr32 (n x : Nat) : Nat := (x / 2 ^ n + x % 2 ^ n * 2 ^ (32 - n)) % 2 ^ 32

/-- SHA-256 round constants. -/
def shaK : List Nat :=
  [1116352408, 1899447441, 3049323471, 3921009573, 961987163, 1508970993,
   2453635748, 2870763221, 3624381080, 310598401, 607225278, 1426881987,
   1925078388, 2162078206, 2614888103, 3248222580, 3835390401, 4022224774,
   264347078, 604807628, 770255983, 1249150122, 1555081692, 1996064986,
   2554220882, 2821834349, 2952996808, 3210313671, 3336571891, 3584528711,
   113926993, 338241895, 666307205, 773529912, 1294757372, 1396182291,
   1695183700, 1986661051, 2177026350, 2456956037, 2730485921, 2820302411,
   3259730800, 3345764771, 3516065817, 3600352804, 4094571909, 275423344,
   430227734, 506948616, 659060556, 883997877, 958139571, 1322822218,
   1537002063, 1747873779, 1955562222, 2024104815, 2227730452, 2361852424,
   2428436474, 2756734187, 3204031479, 3329325298]

/-- SHA-256 working state: eight 32-bit words. -/
structure Hash8 where
  a : Nat
  b : Nat
  c : Nat
  d : Nat
  e : Nat
  f : Nat
  g : Nat
  h : Nat

/-- SHA-256 initial hash value. -/
def shaH0 : Hash8 :=
  ⟨1779033703, 3144134277, 1013904242, 2773480762,
   1359893119, 2600822924, 528734635, 1541459225⟩

/-- Message padding: append 0x80, zeros to 56 mod 64, then the bit length
as 8 big-endian bytes. -/
def shaPad (msg : List Nat) : List Nat :=
  let L := msg.length
  let zeros := (119 - L % 64) % 64
  let bitLen := 8 * L
  msg ++ 0x80 :: List.replicate zeros 0 ++
    [bitLen / 2 ^ 56 % 256, bitLen / 2 ^ 48 % 256, bitLen / 2 ^ 40 % 256,
     bitLen / 2 ^ 32 % 256, bitLen / 2 ^ 24 % 256, bitLen / 2 ^ 16 % 256,
     bitLen / 2 ^ 8 % 256, bitLen % 256]

/-- Split a byte list into 64-byte blocks. -/
def chunks64 (l : List Nat) : List (List Nat) :=
  if l.isEmpty then []
  else l.take 64 :: chunks64 (l.drop 64)
termination_by l.length
decreasing_by
  simp only [List.length_drop]
  cases l with
  | nil => simp_all
  | cons x xs => simp; omega

/-- Big-endian 32-bit words of a 64-byte block. -/
def blockWords (blk : List Nat) : Nat → Nat
  | i =>
    blk.getD (4 * i) 0 * 2 ^ 24 + blk.getD (4 * i + 1) 0 * 2 ^ 16 +
      blk.getD (4 * i + 2) 0 * 2 ^ 8 + blk.getD (4 * i + 3) 0

/-- Message schedule for one block. -/
def shaW (blk : List Nat) : Nat → Nat
  | i =>
    if i < 16 then blockWords blk i
    else
      let s0 := Nat.xor (Nat.xor (rotr32 7 (shaW blk (i - 15)))
        (rotr32 18 (shaW blk (i - 15)))) (shaW blk (i - 15) / 2 ^ 3)
      let s1 := Nat.xor (Nat.xor (rotr32 17 (shaW blk (i - 2)))
        (rotr32 19 (shaW blk (i - 2)))) (shaW blk (i - 2) / 2 ^ 10)
      (shaW blk (i - 16) + s0 + shaW blk (i - 7) + s1) % 2 ^ 32

/-- One SHA-256 compression round. -/
def shaRound (w k : Nat) (st : Hash8) : Hash8 :=
  let S1 := Nat.xor (Nat.xor (rotr32 6 st.e) (rotr32 11 st.e)) (rotr32 25 st.e)
  let ch := Nat.xor (Nat.land st.e st.f) (Nat.land (2 ^ 32 - 1 - st.e) st.g)
  let t1 := (st.h + S1 + ch + k + w) % 2 ^ 32
  let S0 := Nat.xor (Nat.xor (rotr32 2 st.a) (rotr32 13 st.a)) (rotr32 22 st.a)
  let maj := Nat.xor (Nat.xor (Nat.land st.a st.b) (Nat.land st.a st.c))
    (Nat.land st.b st.c)
  let t2 := (S0 + maj) % 2 ^ 32
  ⟨(t1 + t2) % 2 ^ 32, st.a, st.b, st.c, (st.d + t1) % 2 ^ 32, st.e, st.f, st.g⟩

/-- Compress one 64-byte block into the running hash. -/
def shaCompress (st : Hash8) (blk : List Nat) : Hash8 :=
  let fin := (List.range 64).foldl
    (fun acc i => shaRound (shaW blk i) (shaK.getD i 0) acc) st
  ⟨(st.a + fin.a) % 2 ^ 32, (st.b + fin.b) % 2 ^ 32, (st.c + fin.c) % 2 ^ 32,
   (st.d + fin.d) % 2 ^ 32, (st.e + fin.e) % 2 ^ 32, (st.f + fin.f) % 2 ^ 32,
   (st.g + fin.g) % 2 ^ 32, (st.h + fin.h) % 2 ^ 32⟩

/-- Big-endian bytes of one 32-bit word. -/
def wordBytes (w : Nat) : List Nat :=
  [w / 2 ^ 24 % 256, w / 2 ^ 16 % 256, w / 2 ^ 8 % 256, w % 256]

/-- SHA-256 digest of a byte list: 32 bytes. -/
def sha256 (msg : List Nat) : List Nat :=
  let fin := (chunks64 (shaPad msg)).foldl shaCompress shaH0
  wordBytes fin.a ++ wordBytes fin.b ++ wordBytes fin.c ++ wordBytes fin.d ++
    wordBytes fin.e ++ wordBytes fin.f ++ wordBytes fin.g ++ wordBytes fin.h

/-- Lowercase hex digest of a byte list (hashlib hexdigest). -/
def hexDigest (bytes : List Nat) : String :=
  String.mk (bytes.flatMap (fun b => hexFixed 2 b))

/-- Keep a parameter only when its value is not None. -/
def dropNone (kv : String × Option CKValue) : Option (String × CKValue) :=
  kv.2.map (fun v => (kv.1, v))

/-- make_cache_key (cache.py): sort the keyword parameters, drop None
values, serialize `\x7b"url": url, **filtered\x7d` with sort_keys=True and
hash with SHA-256.  Keyword parameters are modelled as an association
list with distinct keys, as Python keyword arguments are. -/
def make_cache_key (url : String) (params : List (String × Option CKValue)) :
    String :=
  let filtered := (sortByKey Prod.fst params).filterMap dropNone
  let keyData := pyDictUpdate [("url", CKValue.jstr url)] filtered
  let raw := dumpsSorted keyData
  hexDigest (sha256 (utf8Bytes raw))

/-- The cache key computed by the fetch route (routes/fetch.py,
_do_fetch): only the three extract flags and the screenshot flag are
passed alongside the url. -/
def fetchCacheKey (r : FetchRequest) : String :=
  make_cache_key r.url
    [("extract_text", some (CKValue.jbool r.extract_text)),
     ("extract_links", some (CKValue.jbool r.extract_links)),
     ("extract_metadata", some (CKValue.jbool r.extract_metadata)),
     ("screenshot", some (CKValue.jbool r.screenshot))]

/-! ## Error classification (fetcher.py) -/

/-- Lowercase an ASCII letter (Python str.lower on the characters that
occur in exception messages). -/
def lowerChar (c : Char) : Char :=
  if 65 ≤ c.toNat ∧ c.toNat ≤ 90 then Char.ofNat (c.toNat + 32) else c

/-- Python str.lower(). -/
def strLower (s : String) : String := String.mk (s.data.map lowerChar)

/-- Whether the second list starts with the first. -/
def listLeads : List Char → List Char → Bool
  | [], _ => true
  | _ :: _, [] => false
  | a :: as, b :: bs => a == b && listLeads as bs

/-- Whether the first list occurs contiguously inside the second. -/
def listInfix (needle : List Char) : List Char → Bool
  | [] => needle.isEmpty
  | b :: bs => listLeads needle (b :: bs) || listInfix needle bs

/-- Python substring containment (`needle in haystack`). -/
def pyContains (haystack needle : String) : Bool :=
  listInfix needle.data haystack.data

/-- Python str.startswith. -/
def strStartsWith (s pre : String) : Bool := listLeads pre.data s.data

/-- An exception as classify_error sees it: its type name, its str()
rendering, and the two isinstance checks the source performs. -/
structure Exc where
  name : String
  msg : String
  isTimeoutError : Bool := false
  isConnectionError : Bool := false
deriving DecidableEq, Repr

/-- HTTP status codes that are retryable (fetcher.py,
_RETRYABLE_STATUS_CODES). -/
def retryableStatusCodes : List Nat := [429, 502, 503, 504]

/-- classify_error (fetcher.py): map an exception to a FetchError by the
first matching rule. -/
def classify_error (exc : Exc) : FetchError :=
  let error_str := strLower exc.msg
  let message := exc.name ++ ": " ++ exc.msg
  if exc.isTimeoutError || pyContains error_str "timeout" then
    ⟨FetchErrorType.timeout, message, true, none⟩
  else if pyContains error_str "dns" || pyContains error_str "name resolution"
      || pyContains error_str "getaddrinfo" then
    ⟨FetchErrorType.dns_error, message, true, none⟩
  else if pyContains error_str "ssl" || pyContains error_str "certificate" then
    ⟨FetchErrorType.ssl_error, message, false, none⟩
  else if pyContains error_str "connection" || pyContains error_str "reset"
      || pyContains error_str "refused" || pyContains error_str "broken pipe"
      || exc.isConnectionError then
    ⟨FetchErrorType.connection_error, message, true, none⟩
  else
    ⟨FetchErrorType.browser_error, message, false, none⟩

/-- classify_http_error (fetcher.py): map an HTTP status code to a
FetchError. -/
def classify_http_error (status_code : Nat) : FetchError :=
  let retryable := retryableStatusCodes.contains status_code
  if status_code = 429 then
    ⟨FetchErrorType.rate_limited,
      "HTTP " ++ toString status_code ++ ": Too Many Requests", true,
      some status_code⟩
  else
    ⟨FetchErrorType.http_error, "HTTP " ++ toString status_code, retryable,
      some status_code⟩

/-! ## URL parsing

A simplified model of urllib.parse.urlparse, restricted to what the
source reads: scheme, netloc and path of an absolute URL written
`scheme://netloc/path`. -/

/-- Split a character list at the first occurrence of `://`. -/
def findSchemeSplit : List Char → Option (List Char × List Char)
  | [] => none
  | ':' :: '/' :: '/' :: rest => some ([], rest)
  | c :: rest => (findSchemeSplit rest).map (fun p => (c :: p.1, p.2))

/-- urlparse(url).scheme, empty when the URL is not absolute. -/
def urlScheme (url : String) : String :=
  match findSchemeSplit url.data with
  | some (s, _) => String.mk s
  | none => ""

/-- urlparse(url).netloc, empty when the URL is not absolute. -/
def urlNetloc (url : String) : String :=
  match findSchemeSplit url.data with
  | some (_, r) => String.mk (r.takeWhile (fun c => c ≠ '/'))
  | none => ""

/-- urlparse(url).path for an absolute URL (leading slash included). -/
def urlPath (url : String) : String :=
  match findSchemeSplit url.data with
  | some (_, r) => String.mk (r.dropWhile (fun c => c ≠ '/'))
  | none => url

/-! ## Retry orchestration (fetcher.py, PageFetcher.fetch)

The single-attempt executor `_fetch_once` is abstracted as a function
from the attempt index to the FetchResult it produces; the loop itself is
embedded faithfully.  A run records the result returned, the number of
executor invocations and the backoff sleeps performed (in seconds). -/

/-- Outcome of one PageFetcher.fetch call. -/
structure FetchRun where
  result : FetchResult
  attempts : Nat
  sleeps : List Nat

/-- Whether an attempt ended in a retryable error. -/
def errRetryable (r : FetchResult) : Bool :=
  match r.error with
  | some e => e.retryable
  | none => false

/-- The retry loop body: `for attempt in range(max_retries + 1)` with
backoff 2^(attempt-1) before every attempt after the first; stops on
success, on a non-retryable error, or when the budget is exhausted.
`fuel` is the number of loop iterations left (maxRetries + 1 - attempt);
the fuel-zero case is never reached from retryRun. -/
def retryGo (outcomes : Nat → FetchResult) (maxRetries : Nat) :
    Nat → Nat → FetchRun
  | attempt, 0 => ⟨outcomes attempt, 0, []⟩
  | attempt, fuel + 1 =>
    let sl : List Nat := if attempt = 0 then [] else [2 ^ (attempt - 1)]
    let r := outcomes attempt
    if r.error.isNone then ⟨r, 1, sl⟩
    else if !errRetryable r then ⟨r, 1, sl⟩
    else if maxRetries ≤ attempt then ⟨r, 1, sl⟩
    else
      let rest := retryGo outcomes maxRetries (attempt + 1) fuel
      ⟨rest.result, rest.attempts + 1, sl ++ rest.sleeps⟩

/-- The retry loop as entered by PageFetcher.fetch. -/
def retryRun (outcomes : Nat → FetchResult) (maxRetries : Nat) : FetchRun :=
  retryGo outcomes maxRetries 0 (maxRetries + 1)

/-- The result returned when the browser context has not been started. -/
def browserNotStartedResult (url : String) : FetchResult :=
  { url := url, status_code := 0, html := "",
    error := some ⟨FetchErrorType.browser_error, "Browser not started",
      false, none⟩ }

/-- The result returned for a URL without scheme or netloc. -/
def invalidUrlResult (url : String) : FetchResult :=
  { url := url, status_code := 0, html := "",
    error := some ⟨FetchErrorType.invalid_url, "Invalid URL: " ++ url,
      false, none⟩ }

/-- PageFetcher.fetch (fetcher.py): the connection check precedes URL
validation, which precedes the retry loop. -/
def PageFetcher.fetch (contextStarted : Bool) (url : String)
    (maxRetries : Nat) (outcomes : Nat → FetchResult) : FetchRun :=
  if !contextStarted then ⟨browserNotStartedResult url, 0, []⟩
  else if urlScheme url = "" ∨ urlNetloc url = "" then
    ⟨invalidUrlResult url, 0, []⟩
  else retryRun outcomes maxRetries

/-! ## Request pipeline (routes/fetch.py, _do_fetch)

The pipeline is embedded as a pure function over an environment that
answers its collaborators (cache store, fetcher, extractors), returning
the response together with the trace of external effects it performs.
The event type has constructors for rate-limit acquisition and robots
consultation so that ordering claims about them are statable; the
source's _do_fetch never performs either. -/

/-- External effect performed by the pipeline, in order. -/
inductive Event
  | cacheGet (key : String)
  | rateAcquire (origin : String)
  | robotsCheck (url : String)
  | fetchNav (url : String)
  | cacheSet (key : String) (resp : FetchResponse)

/-- Whether an event is a rate-limit token acquisition. -/
def Event.isRateAcquire : Event → Bool
  | Event.rateAcquire _ => true
  | _ => false

/-- Whether an event is a robots.txt consultation. -/
def Event.isRobotsCheck : Event → Bool
  | Event.robotsCheck _ => true
  | _ => false

/-- Whether an event is a navigation through the fetcher. -/
def Event.isFetchNav : Event → Bool
  | Event.fetchNav _ => true
  | _ => false

/-- Collaborators of _do_fetch: the cache content, the result the
fetcher returns for this request, and the extractor components. -/
structure PipelineEnv where
  store : String → Option FetchResponse
  fetchResult : FetchResult
  extractText : String → String
  extractMetadata : String → String → PageMetadata
  extractLinks : String → String → List ExtractedLink
  extractStructuredData : String → Option StructuredData
  pdfExtract : List Nat → PdfResult
  screenshotToBase64 : List Nat → String

/-- Python truthiness of an optional string. -/
def pyTruthyStr : Option String → Bool
  | some s => !s.data.isEmpty
  | none => false

/-- Python truthiness of an optional byte payload. -/
def pyTruthyBytes : Option (List Nat) → Bool
  | some l => !l.isEmpty
  | none => false

/-- Python `len(s) if s else 0` for an optional string. -/
def pyLenOrZero : Option String → Nat
  | some s => if s.data.isEmpty then 0 else s.length
  | none => 0

/-- The conditional cache store at the end of a pipeline branch. -/
def storeEvents (cacheFlag : Bool) (k : String) (resp : FetchResponse) :
    List Event :=
  if cacheFlag then [Event.cacheSet k resp] else []

/-- The part of _do_fetch after the cache lookup, beginning with the
fetcher call; returns the response and the effects performed after the
navigation. -/
def afterFetch (env : PipelineEnv) (request : FetchRequest)
    (cache_key : String) : FetchResponse × List Event :=
  let result := env.fetchResult
  if result.error.isSome then
    ({ url := result.url, status_code := result.status_code,
       error := result.error, fetch_time_ms := result.fetch_time_ms }, [])
  else if result.content_type = "application/pdf" ∧
      pyTruthyBytes result.raw_bytes then
    let pdf := env.pdfExtract (result.raw_bytes.getD [])
    let pdf_meta : PageMetadata :=
      { title := pdf.title, author := pdf.author,
        pdf_pages := some pdf.pages, pdf_author := pdf.author }
    let response : FetchResponse :=
      { url := result.url, status_code := result.status_code,
        content_text := if request.extract_text then some pdf.text else none,
        metadata := if request.extract_metadata then some pdf_meta else none,
        content_length := pyLenOrZero (some pdf.text),
        fetch_time_ms := result.fetch_time_ms, cached := false }
    (response, storeEvents request.cache cache_key response)
  else if result.content_type = "application/json" then
    let response : FetchResponse :=
      { url := result.url, status_code := result.status_code,
        content_text := if request.extract_text then some result.html else none,
        content_length := pyLenOrZero (some result.html),
        fetch_time_ms := result.fetch_time_ms, cached := false }
    (response, storeEvents request.cache cache_key response)
  else if result.content_type = "text/plain" then
    let response : FetchResponse :=
      { url := result.url, status_code := result.status_code,
        content_text := if request.extract_text then some result.html else none,
        content_length := pyLenOrZero (some result.html),
        fetch_time_ms := result.fetch_time_ms, cached := false }
    (response, storeEvents request.cache cache_key response)
  else if strStartsWith result.content_type "image/" then
    let response : FetchResponse :=
      { url := result.url, status_code := result.status_code,
        metadata := if request.extract_metadata then some {} else none,
        content_length := 0,
        fetch_time_ms := result.fetch_time_ms, cached := false }
    (response, storeEvents request.cache cache_key response)
  else
    let content_text : Option String :=
      if request.extract_text then some (env.extractText result.html) else none
    let metadata : Option PageMetadata :=
      if request.extract_metadata then
        some (env.extractMetadata result.html result.url)
      else none
    let links : Option (List ExtractedLink) :=
      if request.extract_links then
        some (env.extractLinks result.html result.url)
      else none
    let screenshot_base64 : Option String :=
      if pyTruthyBytes result.screenshot_bytes then
        some (env.screenshotToBase64 (result.screenshot_bytes.getD []))
      else none
    let structured_data := env.extractStructuredData result.html
    let response : FetchResponse :=
      { url := result.url, status_code := result.status_code,
        content_text := content_text, metadata := metadata, links := links,
        screenshot_base64 := screenshot_base64,
        structured_data := structured_data,
        content_length := pyLenOrZero content_text,
        fetch_time_ms := result.fetch_time_ms, cached := false }
    (response,
      storeEvents request.cache cache_key
        { response with screenshot_base64 := none })

/-- _do_fetch (routes/fetch.py): cache lookup, then fetch, then
content-type dispatch, extraction, assembly and cache store. -/
def _do_fetch (env : PipelineEnv) (request : FetchRequest) :
    FetchResponse × List Event :=
  let cache_key := fetchCacheKey request
  let rest := afterFetch env request cache_key
  if request.cache then
    match env.store cache_key with
    | some cached =>
      ({ cached with cached := true }, [Event.cacheGet cache_key])
    | none =>
      (rest.1, Event.cacheGet cache_key :: Event.fetchNav request.url :: rest.2)
  else
    (rest.1, Event.fetchNav request.url :: rest.2)

/-! ## robots.txt (robots_handler.py)

The handler delegates parsing to urllib.robotparser.  RobotFileParser is
modelled below from that library's semantics (comment stripping, groups
of user-agents with allow/disallow rule lines, a `*` default group,
first-matching-rule allowance; path percent-quoting is omitted). -/

/-- Characters Python str.strip() removes. -/
def isPySpace (c : Char) : Bool :=
  c = ' ' ∨ c = '\t' ∨ c = '\n' ∨ c = '\r' ∨ c.toNat = 11 ∨ c.toNat = 12

/-- Python str.strip(). -/
def strTrim (s : String) : String :=
  String.mk (((s.data.dropWhile isPySpace).reverse.dropWhile isPySpace).reverse)

/-- Split a character list on a separator character. -/
def splitCharList (sep : Char) : List Char → List (List Char)
  | [] => [[]]
  | c :: cs =>
    let r := splitCharList sep cs
    if c = sep then [] :: r
    else
      match r with
      | [] => [[c]]
      | h :: t => (c :: h) :: t

/-- Python str.split(sep). -/
def splitChar (sep : Char) (s : String) : List String :=
  (splitCharList sep s.data).map String.mk

/-- Drop everything from the first '#' on (robots.txt comments). -/
def stripComment (s : String) : String :=
  String.mk (s.data.takeWhile (fun c => c ≠ '#'))

/-- Split a string at the first colon into key and value. -/
def splitOnceColon (s : String) : Option (String × String) :=
  if (s.data.takeWhile (fun c => c ≠ ':')).length = s.data.length then none
  else some (String.mk (s.data.takeWhile (fun c => c ≠ ':')),
    String.mk ((s.data.dropWhile (fun c => c ≠ ':')).drop 1))

/-- One allow/disallow line of a robots.txt group. -/
structure RuleLine where
  path : String
  allowance : Bool

/-- An empty Disallow means allow-all for the group. -/
def mkRuleLine (path : String) (allowance : Bool) : RuleLine :=
  if path = "" ∧ allowance = false then ⟨path, true⟩ else ⟨path, allowance⟩

/-- One user-agent group of a robots.txt file. -/
structure RobotsEntry where
  useragents : List String
  rulelines : List RuleLine

/-- Parsed robots.txt ruleset (urllib.robotparser.RobotFileParser):
explicit groups plus the `*` default group. -/
structure Ruleset where
  entries : List RobotsEntry
  default_entry : Option RobotsEntry

/-- Record a finished group: a `*` group becomes the default (first one
wins), others are appended. -/
def addEntry (rp : Ruleset) (e : RobotsEntry) : Ruleset :=
  if e.useragents.contains "*" then
    match rp.default_entry with
    | none => { rp with default_entry := some e }
    | some _ => rp
  else { rp with entries := rp.entries ++ [e] }

/-- One step of the robots.txt line parser (urllib.robotparser.parse):
state 0 = start, 1 = collecting user-agents, 2 = collecting rules. -/
def lineStep (acc : Nat × RobotsEntry × Ruleset) (line : String) :
    Nat × RobotsEntry × Ruleset :=
  let (state, entry, rp) := acc
  let (state, entry, rp) :=
    if line.isEmpty then
      if state = 1 then (0, (⟨[], []⟩ : RobotsEntry), rp)
      else if state = 2 then (0, (⟨[], []⟩ : RobotsEntry), addEntry rp entry)
      else (state, entry, rp)
    else (state, entry, rp)
  let l := strTrim (stripComment line)
  if l.isEmpty then (state, entry, rp)
  else
    match splitOnceColon l with
    | none => (state, entry, rp)
    | some (k, v) =>
      let k := strLower (strTrim k)
      let v := strTrim v
      if k = "user-agent" then
        let (entry, rp) :=
          if state = 2 then ((⟨[], []⟩ : RobotsEntry), addEntry rp entry)
          else (entry, rp)
        (1, { entry with useragents := entry.useragents ++ [v] }, rp)
      else if k = "disallow" then
        if state ≠ 0 then
          (2, { entry with rulelines := entry.rulelines ++ [mkRuleLine v false] },
            rp)
        else (state, entry, rp)
      else if k = "allow" then
        if state ≠ 0 then
          (2, { entry with rulelines := entry.rulelines ++ [mkRuleLine v true] },
            rp)
        else (state, entry, rp)
      else (state, entry, rp)

/-- RobotFileParser.parse over a list of lines. -/
def parseRobots (lines : List String) : Ruleset :=
  let (state, entry, rp) := lines.foldl lineStep (0, ⟨[], []⟩, ⟨[], none⟩)
  if state = 2 then addEntry rp entry else rp

/-- Whether a rule line applies to a request path. -/
def ruleApplies (rl : RuleLine) (path : String) : Bool :=
  rl.path = "*" || strStartsWith path rl.path

/-- First-matching-rule allowance of a group; allow when nothing matches. -/
def entryAllowance (e : RobotsEntry) (path : String) : Bool :=
  match e.rulelines.find? (fun rl => ruleApplies rl path) with
  | some rl => rl.allowance
  | none => true

/-- Whether a group applies to a user agent. -/
def agentApplies (e : RobotsEntry) (useragent : String) : Bool :=
  let ua := strLower ((splitChar '/' useragent).headD useragent)
  e.useragents.any
    (fun agent => agent = "*" || pyContains ua (strLower agent))

/-- RobotFileParser.can_fetch. -/
def Ruleset.can_fetch (rp : Ruleset) (useragent url : String) : Bool :=
  let path := let p := urlPath url; if p.isEmpty then "/" else p
  match rp.entries.find? (fun e => agentApplies e useragent) with
  | some e => entryAllowance e path
  | none =>
    match rp.default_entry with
    | some e => entryAllowance e path
    | none => true

/-- The in-process cache of RobotsHandler: origin to parsed ruleset. -/
structure RobotsState where
  memory_cache : List (String × Ruleset)

/-- Outcome of the HTTP GET for robots.txt. -/
inductive HttpOutcome
  | resp (status : Nat) (text : String)
  | exc (msg : String)

/-- Collaborators of RobotsHandler: the optional shared KV store and the
HTTP client. -/
structure RobotsEnv where
  redisGet : Option (String → Option String)
  http : String → HttpOutcome

/-- Memory-cache lookup by origin. -/
def lookupMem (m : List (String × Ruleset)) (origin : String) :
    Option Ruleset :=
  (m.find? (fun kv => decide (kv.1 = origin))).map Prod.snd

/-- The shared KV store lookup for a cached robots.txt body. -/
def redisRobots (env : RobotsEnv) (origin : String) : Option String :=
  match env.redisGet with
  | some g => g ("iris:robots:" ++ origin)
  | none => none

/-- RobotsHandler's parser lookup (robots_handler.py): memory cache, then the
shared KV store, then an HTTP fetch; a non-200 response stores an
allow-all ruleset, a fetch error returns none and stores nothing. -/
def _get_ruleset (env : RobotsEnv) (st : RobotsState) (origin : String) :
    Option Ruleset × RobotsState :=
  match lookupMem st.memory_cache origin with
  | some p => (some p, st)
  | none =>
    match redisRobots env origin with
    | some content =>
      let p := parseRobots (splitChar '\n' content)
      (some p, ⟨st.memory_cache ++ [(origin, p)]⟩)
    | none =>
      match env.http (origin ++ "/robots.txt") with
      | HttpOutcome.exc _ => (none, st)
      | HttpOutcome.resp status text =>
        if status ≠ 200 then
          let p := parseRobots [""]
          (some p, ⟨st.memory_cache ++ [(origin, p)]⟩)
        else
          let p := parseRobots (splitChar '\n' text)
          (some p, ⟨st.memory_cache ++ [(origin, p)]⟩)

/-- RobotsHandler.can_fetch (robots_handler.py). -/
def RobotsHandler.can_fetch (env : RobotsEnv) (st : RobotsState)
    (respect_robots : Bool) (user_agent url : String) : Bool × RobotsState :=
  if !respect_robots then (true, st)
  else
    let origin := urlScheme url ++ "://" ++ urlNetloc url
    match _get_ruleset env st origin with
    | (none, st2) => (true, st2)
    | (some p, st2) => (p.can_fetch user_agent url, st2)

/-! ## Structured-data extraction -/

/-- Insert a string into an ascending list, skipping duplicates
(sorted-unique accumulation). -/
def sortedInsertUniq (x : String) : List String → List String
  | [] => [x]
  | y :: ys =>
    if strLt x y then x :: y :: ys
    else if x = y then y :: ys
    else y :: sortedInsertUniq x ys

/-- Sorted-unique list of strings (Python sorted(set(l))). -/
def sortUniq (l : List String) : List String := l.foldr sortedInsertUniq []

/-- The leaf name of a microdata itemtype URL
(https://schema.org/Product becomes Product). -/
def leafName (itemtype : String) : String :=
  (splitChar '/' itemtype).getLastD itemtype

/-- The value of the "@type" key of a JSON-LD object: a string yields
itself, a list yields its string members, anything else contributes
nothing. -/
def typesOfJson : Json → List String
  | Json.obj kvs =>
    match (kvs.find? (fun kv => decide (kv.1 = "@type"))).map Prod.snd with
    | some (Json.str s) => [s]
    | some (Json.arr l) =>
      l.filterMap (fun x => match x with | Json.str s => some s | _ => none)
    | _ => []
  | _ => []

/-- Successfully parsed JSON-LD blocks with top-level arrays flattened
into the list; malformed blocks (none) contribute nothing. -/
def jsonLdFlatten (blocks : List (Option Json)) : List Json :=
  (blocks.filterMap id).flatMap
    (fun j => match j with | Json.arr l => l | v => [v])

/-- Modelled from the spec: ContentExtractor.extract_structured_data is
called by routes/fetch.py and exercised by tests/test_structured_data.py
but is absent from src/iris/extractor.py.  Following the spec: every
ld+json script block is JSON-parsed (a block is given here by its parse
result, none when malformed); malformed blocks are silently skipped;
top-level arrays are flattened into the list; schema_org_types is the
sorted-unique union of the JSON-LD @type values (expanded when @type is
a list) and the microdata itemtype leaf names; the result is null when
no structured data is found. -/
def extract_structured_data (blocks : List (Option Json))
    (itemtypes : List String) : Option StructuredData :=
  let json_ld := jsonLdFlatten blocks
  let types := sortUniq (json_ld.flatMap typesOfJson ++ itemtypes.map leafName)
  if json_ld.isEmpty ∧ types.isEmpty then none
  else
    some { json_ld := if json_ld.isEmpty then none else some json_ld,
           schema_org_types := if types.isEmpty then none else some types }

/-- What one entry into the retry loop at a given attempt index
guarantees: at least one and at most the remaining budget of attempts,
the last attempt's result returned, backoff 2^(k-1) seconds before every
performed attempt k with k > 0, every attempt before the last failed
retryably, and the loop stopped for one of the three stated reasons. -/
def RetryRunSpec (outcomes : Nat → FetchResult) (maxRetries attempt : Nat)
    (out : FetchRun) : Prop :=
  1 ≤ out.attempts ∧
  attempt + out.attempts ≤ maxRetries + 1 ∧
  out.result = outcomes (attempt + out.attempts - 1) ∧
  out.sleeps = (List.range out.attempts).filterMap
    (fun i => if attempt + i = 0 then none else some (2 ^ (attempt + i - 1))) ∧
  (∀ i, i + 1 < out.attempts →
    (outcomes (attempt + i)).error.isSome = true ∧
    errRetryable (outcomes (attempt + i)) = true) ∧
  (attempt + out.attempts = maxRetries + 1 ∨
    (outcomes (attempt + out.attempts - 1)).error = none ∨
    errRetryable (outcomes (attempt + out.attempts - 1)) = false)

/-! ## Concrete sample values

Used to evaluate the embedded operations at specific inputs. -/

/-- A pipeline environment with the given cache content and fetch
result, and simple concrete extractor components. -/
def sampleEnv (store : String → Option FetchResponse) (fr : FetchResult) :
    PipelineEnv :=
  { store := store, fetchResult := fr,
    extractText := fun h => h,
    extractMetadata := fun _ _ => {},
    extractLinks := fun _ _ => [],
    extractStructuredData := fun _ => none,
    pdfExtract := fun _ => { text := "", pages := 0 },
    screenshotToBase64 := fun _ => "" }

/-- A successful HTML fetch result. -/
def sampleHtmlResult : FetchResult :=
  { url := "https://example.com", status_code := 200,
    html := "<html><body>Hello</body></html>", fetch_time_ms := 5,
    content_type := "text/html" }

/-- An attempt that fails with a retryable timeout. -/
def timeoutAttempt : FetchResult :=
  { url := "https://slow.example.com", status_code := 0, html := "",
    error := some ⟨FetchErrorType.timeout,
      "TimeoutError: Navigation timeout", true, none⟩ }

/-- A cached response as stored by the pipeline. -/
def sampleStoredResponse : FetchResponse :=
  { url := "https://example.com", status_code := 200,
    content_text := some "Test content here", content_length := 17,
    fetch_time_ms := 100, cached := false }

/-- A robots environment whose HTTP client always fails. -/
def robotsEnvExc : RobotsEnv :=
  { redisGet := none, http := fun _ => HttpOutcome.exc "Network error" }

/-- A robots environment whose HTTP client always returns 404. -/
def robotsEnv404 : RobotsEnv :=
  { redisGet := none, http := fun _ => HttpOutcome.resp 404 "" }

/-! ## Order lemmas for the code-point comparison -/

theorem lexLt_irrefl : ∀ l, lexLt l l = false := by
  intro l
  induction l with
  | nil => rfl
  | cons c cs ih => simp [lexLt, ih]

theorem lexLt_asymm : ∀ a b, lexLt a b = true → lexLt b a = false := by
  intro a
  induction a with
  | nil =>
    intro b h
    cases b with
    | nil => simp [lexLt] at h
    | cons y ys => simp [lexLt]
  | cons x xs ih =>
    intro b h
    cases b with
    | nil => simp [lexLt] at h
    | cons y ys =>
      simp only [lexLt] at h ⊢
      rcases Nat.lt_trichotomy x.toNat y.toNat with hlt | heq | hgt
      · simp [hlt, show ¬ y.toNat < x.toNat by omega]
      · simp only [show ¬ x.toNat < y.toNat by omega,
          show ¬ y.toNat < x.toNat by omega, if_false] at h ⊢
        exact ih ys h
      · simp [hgt, show ¬ x.toNat < y.toNat by omega] at h

theorem lexLt_conn : ∀ a b, lexLt a b = false → lexLt b a = false → a = b := by
  intro a
  induction a with
  | nil =>
    intro b h1 h2
    cases b with
    | nil => rfl
    | cons y ys => simp [lexLt] at h1
  | cons x xs ih =>
    intro b h1 h2
    cases b with
    | nil => simp [lexLt] at h2
    | cons y ys =>
      simp only [lexLt] at h1 h2
      rcases Nat.lt_trichotomy x.toNat y.toNat with hlt | heq | hgt
      · simp [hlt] at h1
      · have hx : x = y := by
          apply Char.ext
          apply UInt32.ext
          exact heq
        simp only [show ¬ x.toNat < y.toNat by omega,
          show ¬ y.toNat < x.toNat by omega, if_false] at h1 h2
        rw [hx, ih ys h1 h2]
      · simp [hgt] at h2

theorem lexLt_trans :
    ∀ a b c, lexLt a b = true → lexLt b c = true → lexLt a c = true := by
  intro a
  induction a with
  | nil =>
    intro b c h1 h2
    cases b with
    | nil => simp [lexLt] at h1
    | cons y ys =>
      cases c with
      | nil => simp [lexLt] at h2
      | cons z zs => simp [lexLt]
  | cons x xs ih =>
    intro b c h1 h2
    cases b with
    | nil => simp [lexLt] at h1
    | cons y ys =>
      cases c with
      | nil => simp [lexLt] at h2
      | cons z zs =>
        simp only [lexLt] at h1 h2 ⊢
        rcases Nat.lt_trichotomy x.toNat y.toNat with hxy | hxy | hxy
        · rcases Nat.lt_trichotomy y.toNat z.toNat with hyz | hyz | hyz
          · simp [show x.toNat < z.toNat by omega]
          · simp [show x.toNat < z.toNat by omega]
          · simp [show ¬ y.toNat < z.toNat by omega, hyz] at h2
        · simp only [show ¬ x.toNat < y.toNat by omega,
            show ¬ y.toNat < x.toNat by omega, if_false] at h1
          rcases Nat.lt_trichotomy y.toNat z.toNat with hyz | hyz | hyz
          · simp [show x.toNat < z.toNat by omega]
          · simp only [show ¬ y.toNat < z.toNat by omega,
              show ¬ z.toNat < y.toNat by omega, if_false] at h2
            simp only [show ¬ x.toNat < z.toNat by omega,
              show ¬ z.toNat < x.toNat by omega, if_false]
            exact ih ys zs h1 h2
          · simp [show ¬ y.toNat < z.toNat by omega, hyz] at h2
        · simp [show ¬ x.toNat < y.toNat by omega, hxy] at h1

theorem lexLt_le_trans :
    ∀ a b c, lexLt b a = false → lexLt c b = false → lexLt c a = false := by
  intro a b c h1 h2
  by_contra hca
  have hca' : lexLt c a = true := by
    cases h : lexLt c a with
    | false => exact absurd h hca
    | true => rfl
  rcases hcb : lexLt b c with _ | _
  · have hbc := lexLt_conn b c hcb h2
    subst hbc
    exact absurd hca' (by simp [h1])
  · have := lexLt_trans b c a hcb hca'
    exact absurd this (by simp [h1])

theorem strLt_asymm (a b : String) (h : strLt a b = true) : strLt b a = false :=
  lexLt_asymm a.data b.data h

theorem strLt_conn (a b : String) (h1 : strLt a b = false)
    (h2 : strLt b a = false) : a = b := by
  have := lexLt_conn a.data b.data h1 h2
  cases a with
  | mk da =>
    cases b with
    | mk db => simp only [String.data] at this; rw [this]

theorem strLt_trans (a b c : String) (h1 : strLt a b = true)
    (h2 : strLt b c = true) : strLt a c = true :=
  lexLt_trans a.data b.data c.data h1 h2

theorem strLt_le_trans (a b c : String) (h1 : strLt b a = false)
    (h2 : strLt c b = false) : strLt c a = false :=
  lexLt_le_trans a.data b.data c.data h1 h2

theorem strLt_of_le_of_ne (a b : String) (hle : strLt b a = false)
    (hne : a ≠ b) : strLt a b = true := by
  cases h : strLt a b with
  | true => rfl
  | false => exact absurd (strLt_conn a b h hle) hne

/-! ## Sorting lemmas -/

theorem insKeySorted_perm {α : Type} (key : α → String) (x : α) :
    ∀ l : List α, List.Perm (insKeySorted key x l) (x :: l) := by
  intro l
  induction l with
  | nil => exact List.Perm.refl _
  | cons y ys ih =>
    simp only [insKeySorted]
    by_cases h : strLt (key y) (key x) = true
    · rw [if_pos h]
      exact (List.Perm.cons y ih).trans (List.Perm.swap x y ys)
    · rw [if_neg h]

theorem sortByKey_perm {α : Type} (key : α → String) (l : List α) :
    List.Perm (sortByKey key l) l := by
  induction l with
  | nil => exact List.Perm.refl _
  | cons a l ih =>
    have : sortByKey key (a :: l) = insKeySorted key a (sortByKey key l) := rfl
    rw [this]
    exact (insKeySorted_perm key a (sortByKey key l)).trans (List.Perm.cons a ih)

theorem insKeySorted_sorted {α : Type} (key : α → String) (x : α) :
    ∀ l : List α,
      l.Pairwise (fun a b => strLt (key b) (key a) = false) →
      (insKeySorted key x l).Pairwise (fun a b => strLt (key b) (key a) = false) := by
  intro l
  induction l with
  | nil => intro _; simp [insKeySorted]
  | cons y ys ih =>
    intro hp
    rw [List.pairwise_cons] at hp
    obtain ⟨hy, hys⟩ := hp
    simp only [insKeySorted]
    by_cases h : strLt (key y) (key x) = true
    · rw [if_pos h]
      rw [List.pairwise_cons]
      refine ⟨?_, ih hys⟩
      intro z hz
      have hz2 : z ∈ x :: ys := (insKeySorted_perm key x ys).mem_iff.mp hz
      rcases List.mem_cons.mp hz2 with hz3 | hz3
      · rw [hz3]
        exact strLt_asymm _ _ h
      · exact hy z hz3
    · rw [if_neg h]
      have hxy : strLt (key y) (key x) = false := by
        cases h2 : strLt (key y) (key x) with
        | true => exact absurd h2 h
        | false => rfl
      rw [List.pairwise_cons]
      constructor
      · intro z hz
        rcases List.mem_cons.mp hz with hz3 | hz3
        · rw [hz3]
          exact hxy
        · exact strLt_le_trans (key x) (key y) (key z) hxy (hy z hz3)
      · rw [List.pairwise_cons]
        exact ⟨hy, hys⟩

theorem sortByKey_sorted {α : Type} (key : α → String) (l : List α) :
    (sortByKey key l).Pairwise (fun a b => strLt (key b) (key a) = false) := by
  induction l with
  | nil => simp [sortByKey]
  | cons a l ih => exact insKeySorted_sorted key a (sortByKey key l) ih

theorem pairwise_strict_of_nodup {α : Type} (key : α → String) (l : List α)
    (hs : l.Pairwise (fun a b => strLt (key b) (key a) = false))
    (hn : (l.map key).Nodup) :
    l.Pairwise (fun a b => strLt (key a) (key b) = true) := by
  have hn2 : l.Pairwise (fun a b => key a ≠ key b) := List.pairwise_map.mp hn
  exact (hs.and hn2).imp (fun h => strLt_of_le_of_ne _ _ h.1 h.2)

theorem sorted_key_unique {α : Type} (key : α → String) (l₁ l₂ : List α)
    (hp : List.Perm l₁ l₂)
    (h₁ : l₁.Pairwise (fun a b => strLt (key a) (key b) = true))
    (h₂ : l₂.Pairwise (fun a b => strLt (key a) (key b) = true)) :
    l₁ = l₂ := by
  haveI : IsAntisymm α (fun a b => strLt (key a) (key b) = true) := by
    constructor
    intro a b hab hba
    have := strLt_asymm (key a) (key b) hab
    rw [this] at hba
    exact absurd hba (by simp)
  exact List.eq_of_perm_of_sorted hp h₁ h₂

theorem nodup_keys_filterMap (l : List (String × Option CKValue))
    (h : (l.map Prod.fst).Nodup) :
    ((l.filterMap dropNone).map Prod.fst).Nodup := by
  induction l with
  | nil => simp
  | cons kv rest ih =>
    simp only [List.map_cons, List.nodup_cons] at h
    obtain ⟨hk, hrest⟩ := h
    cases hv : kv.2 with
    | none =>
      have : dropNone kv = none := by simp [dropNone, hv]
      simpa [List.filterMap_cons, this] using ih hrest
    | some v =>
      have hd : dropNone kv = some (kv.1, v) := by simp [dropNone, hv]
      simp only [List.filterMap_cons, hd, List.map_cons, List.nodup_cons]
      refine ⟨?_, ih hrest⟩
      intro hmem
      apply hk
      obtain ⟨x, hx, hfst⟩ := List.mem_map.mp hmem
      obtain ⟨a, ha, hda⟩ := List.mem_filterMap.mp hx
      cases h2 : a.2 with
      | none => simp [dropNone, h2] at hda
      | some w =>
        simp only [dropNone, h2, Option.map_some'] at hda
        have hda2 := Option.some.inj hda
        subst hda2
        simp only at hfst
        exact List.mem_map.mpr ⟨a, ha, hfst⟩

theorem dropNone_keeps_key (a : String × Option CKValue)
    (x : String × CKValue) (h : dropNone a = some x) : x.1 = a.1 := by
  cases h2 : a.2 with
  | none => simp [dropNone, h2] at h
  | some w =>
    simp only [dropNone, h2, Option.map_some'] at h
    have h3 := Option.some.inj h
    subst h3
    rfl

theorem filtered_sorted_eq (l₁ l₂ : List (String × Option CKValue))
    (hperm : List.Perm (l₁.filterMap dropNone) (l₂.filterMap dropNone))
    (hnodup : ((l₁.filterMap dropNone).map Prod.fst).Nodup) :
    (sortByKey Prod.fst l₁).filterMap dropNone =
      (sortByKey Prod.fst l₂).filterMap dropNone := by
  have hA : List.Perm ((sortByKey Prod.fst l₁).filterMap dropNone)
      (l₁.filterMap dropNone) := (sortByKey_perm Prod.fst l₁).filterMap dropNone
  have hB : List.Perm ((sortByKey Prod.fst l₂).filterMap dropNone)
      (l₂.filterMap dropNone) := (sortByKey_perm Prod.fst l₂).filterMap dropNone
  have hAB : List.Perm ((sortByKey Prod.fst l₁).filterMap dropNone)
      ((sortByKey Prod.fst l₂).filterMap dropNone) :=
    (hA.trans hperm).trans hB.symm
  have sortedLe : ∀ l : List (String × Option CKValue),
      ((sortByKey Prod.fst l).filterMap dropNone).Pairwise
        (fun a b => strLt b.1 a.1 = false) := by
    intro l
    rw [List.pairwise_filterMap]
    refine (sortByKey_sorted Prod.fst l).imp ?_
    intro a b hab x hx y hy
    rw [dropNone_keeps_key a x hx, dropNone_keeps_key b y hy]
    exact hab
  have nodupA : (((sortByKey Prod.fst l₁).filterMap dropNone).map
      Prod.fst).Nodup :=
    ((hA.map Prod.fst).nodup_iff).mpr hnodup
  have nodupB : (((sortByKey Prod.fst l₂).filterMap dropNone).map
      Prod.fst).Nodup :=
    ((hAB.map Prod.fst).nodup_iff).mp nodupA
  exact sorted_key_unique Prod.fst _ _ hAB
    (pairwise_strict_of_nodup Prod.fst _ (sortedLe l₁) nodupA)
    (pairwise_strict_of_nodup Prod.fst _ (sortedLe l₂) nodupB)

/-! ## Digest shape lemmas -/

theorem hexFixed_length (w : Nat) : ∀ n, (hexFixed w n).length = w := by
  induction w with
  | zero => intro n; rfl
  | succ w ih =>
    intro n
    simp [hexFixed, ih]

theorem hexDigit_mem (n : Nat) :
    "0123456789abcdef".data.getD (n % 16) '0' ∈ "0123456789abcdef".data := by
  have h : n % 16 < 16 := Nat.mod_lt _ (by norm_num)
  set m := n % 16 with hm
  interval_cases m <;> decide

theorem hexFixed_mem (w : Nat) :
    ∀ n, ∀ c ∈ hexFixed w n, c ∈ "0123456789abcdef".data := by
  induction w with
  | zero => intro n c hc; simp [hexFixed] at hc
  | succ w ih =>
    intro n c hc
    simp only [hexFixed] at hc
    rcases List.mem_append.mp hc with hc | hc
    · exact ih (n / 16) c hc
    · rcases List.mem_singleton.mp hc with rfl
      exact hexDigit_mem n

theorem sha256_length (msg : List Nat) : (sha256 msg).length = 32 := by
  simp [sha256, wordBytes]

theorem flatMap_hexFixed_length :
    ∀ bytes : List Nat,
      (bytes.flatMap (fun b => hexFixed 2 b)).length = 2 * bytes.length := by
  intro bytes
  induction bytes with
  | nil => rfl
  | cons b bs ih =>
    simp only [List.flatMap_cons, List.length_append, hexFixed_length, ih,
      List.length_cons]
    omega

theorem hexDigest_length (bytes : List Nat) :
    (hexDigest bytes).length = 2 * bytes.length := by
  have h : (hexDigest bytes).length =
      (bytes.flatMap (fun b => hexFixed 2 b)).length := rfl
  rw [h, flatMap_hexFixed_length]

theorem hexDigest_hex (bytes : List Nat) :
    ∀ c ∈ (hexDigest bytes).data, c ∈ "0123456789abcdef".data := by
  intro c hc
  have h : (hexDigest bytes).data = bytes.flatMap (fun b => hexFixed 2 b) := rfl
  rw [h] at hc
  obtain ⟨b, _, hcb⟩ := List.mem_flatMap.mp hc
  exact hexFixed_mem 2 b c hcb

theorem make_cache_key_length (url : String)
    (params : List (String × Option CKValue)) :
    (make_cache_key url params).length = 64 := by
  show (hexDigest (sha256 _)).length = 64
  rw [hexDigest_length, sha256_length]

theorem make_cache_key_hex (url : String)
    (params : List (String × Option CKValue)) :
    ∀ c ∈ (make_cache_key url params).data, c ∈ "0123456789abcdef".data := by
  intro c hc
  exact hexDigest_hex _ c hc

/-! ## Claim theorems: cache key -/

/-- C8: make_cache_key is stable under permutation of the keyword
parameters, ignores parameters whose value is None, and its output is
exactly 64 lowercase hexadecimal characters.  Keyword arguments have
distinct keys, which the Nodup hypothesis records. -/
theorem C8_cache_key_stability (url : String)
    (p q : List (String × Option CKValue))
    (hkeys : (p.map Prod.fst).Nodup) (hperm : List.Perm p q) :
    make_cache_key url q = make_cache_key url p ∧
    (∀ k : String, make_cache_key url (p ++ [(k, none)]) = make_cache_key url p) ∧
    (make_cache_key url p).length = 64 ∧
    ∀ c ∈ (make_cache_key url p).data, c ∈ "0123456789abcdef".data := by
  have hnodupp := nodup_keys_filterMap p hkeys
  refine ⟨?_, ?_, make_cache_key_length url p, make_cache_key_hex url p⟩
  · have nodupq : ((q.filterMap dropNone).map Prod.fst).Nodup :=
      (((hperm.filterMap dropNone).map Prod.fst).nodup_iff).mp hnodupp
    have hf : (sortByKey Prod.fst q).filterMap dropNone =
        (sortByKey Prod.fst p).filterMap dropNone :=
      filtered_sorted_eq q p ((hperm.symm).filterMap dropNone) nodupq
    simp only [make_cache_key, hf]
  · intro k
    have hdrop : (p ++ [(k, (none : Option CKValue))]).filterMap dropNone =
        p.filterMap dropNone := by
      simp [List.filterMap_append, dropNone]
    have hf : (sortByKey Prod.fst (p ++ [(k, none)])).filterMap dropNone =
        (sortByKey Prod.fst p).filterMap dropNone := by
      apply filtered_sorted_eq
      · rw [hdrop]
      · rw [hdrop]
        exact hnodupp
    simp only [make_cache_key, hf]

/-- Witness for C8 at concrete inputs: permuting two parameters and
adding a None parameter leave the key unchanged, and the key has 64
characters. -/
theorem C8_cache_key_stability_witness :
    make_cache_key "https://example.com"
        [("screenshot", some (CKValue.jbool false)),
         ("extract_text", some (CKValue.jbool true))] =
      make_cache_key "https://example.com"
        [("extract_text", some (CKValue.jbool true)),
         ("screenshot", some (CKValue.jbool false))] ∧
    make_cache_key "https://example.com"
        ([("extract_text", some (CKValue.jbool true)),
          ("screenshot", some (CKValue.jbool false))] ++ [("extra", none)]) =
      make_cache_key "https://example.com"
        [("extract_text", some (CKValue.jbool true)),
         ("screenshot", some (CKValue.jbool false))] ∧
    (make_cache_key "https://example.com"
        [("extract_text", some (CKValue.jbool true)),
         ("screenshot", some (CKValue.jbool false))]).length = 64 := by
  have h := C8_cache_key_stability "https://example.com"
    [("extract_text", some (CKValue.jbool true)),
     ("screenshot", some (CKValue.jbool false))]
    [("screenshot", some (CKValue.jbool false)),
     ("extract_text", some (CKValue.jbool true))]
    (by decide) (by decide)
  exact ⟨h.1, h.2.1 "extra", h.2.2.1⟩

/-- C3 counterexample: two requests for the same URL that differ only in
wait_strategy receive the same cache key from the fetch route, because
_do_fetch does not pass wait_strategy to make_cache_key. -/
theorem C3_counterexample :
    fetchCacheKey { url := "https://example.com" } =
      fetchCacheKey
        { url := "https://example.com",
          wait_strategy := WaitStrategy.networkidle } ∧
    ({ url := "https://example.com" } : FetchRequest).wait_strategy ≠
      ({ url := "https://example.com",
         wait_strategy := WaitStrategy.networkidle } : FetchRequest).wait_strategy := by
  exact ⟨rfl, by decide⟩

/-- C3 (amended): the fetch-route cache key depends only on the URL, the
three extract flags and the screenshot flag; in particular the wait
strategy is not part of the key. -/
theorem C3_cache_key_fields (r₁ r₂ : FetchRequest)
    (hurl : r₁.url = r₂.url)
    (ht : r₁.extract_text = r₂.extract_text)
    (hl : r₁.extract_links = r₂.extract_links)
    (hm : r₁.extract_metadata = r₂.extract_metadata)
    (hs : r₁.screenshot = r₂.screenshot) :
    fetchCacheKey r₁ = fetchCacheKey r₂ := by
  simp only [fetchCacheKey, hurl, ht, hl, hm, hs]

/-- Witness for the amended C3 at concrete requests differing in wait
strategy, selector and cache flag. -/
theorem C3_cache_key_fields_witness :
    fetchCacheKey { url := "https://example.com" } =
      fetchCacheKey
        { url := "https://example.com",
          wait_strategy := WaitStrategy.selector,
          wait_for_selector := some ".content", cache := false } :=
  C3_cache_key_fields _ _ rfl rfl rfl rfl rfl

/-! ## Claim theorems: error classification -/

/-- C5: error classification is a pure function of the exception and the
HTTP status, with top-to-bottom precedence over the keyword rules:
timeout, then dns, then ssl/certificate, then connection yield their
error kinds with the table's retryable flags; any other exception is a
non-retryable browser_error; HTTP 429 is retryable rate_limited and any
other status at least 400 is http_error, retryable exactly for
502, 503 and 504. -/
theorem C5_error_classification (e : Exc) (status : Nat) :
    ((e.isTimeoutError || pyContains (strLower e.msg) "timeout") = true →
      classify_error e =
        ⟨FetchErrorType.timeout, e.name ++ ": " ++ e.msg, true, none⟩) ∧
    ((e.isTimeoutError || pyContains (strLower e.msg) "timeout") = false →
      (pyContains (strLower e.msg) "dns" ||
        pyContains (strLower e.msg) "name resolution" ||
        pyContains (strLower e.msg) "getaddrinfo") = true →
      classify_error e =
        ⟨FetchErrorType.dns_error, e.name ++ ": " ++ e.msg, true, none⟩) ∧
    ((e.isTimeoutError || pyContains (strLower e.msg) "timeout") = false →
      (pyContains (strLower e.msg) "dns" ||
        pyContains (strLower e.msg) "name resolution" ||
        pyContains (strLower e.msg) "getaddrinfo") = false →
      (pyContains (strLower e.msg) "ssl" ||
        pyContains (strLower e.msg) "certificate") = true →
      classify_error e =
        ⟨FetchErrorType.ssl_error, e.name ++ ": " ++ e.msg, false, none⟩) ∧
    ((e.isTimeoutError || pyContains (strLower e.msg) "timeout") = false →
      (pyContains (strLower e.msg) "dns" ||
        pyContains (strLower e.msg) "name resolution" ||
        pyContains (strLower e.msg) "getaddrinfo") = false →
      (pyContains (strLower e.msg) "ssl" ||
        pyContains (strLower e.msg) "certificate") = false →
      (pyContains (strLower e.msg) "connection" ||
        pyContains (strLower e.msg) "reset" ||
        pyContains (strLower e.msg) "refused" ||
        pyContains (strLower e.msg) "broken pipe" ||
        e.isConnectionError) = true →
      classify_error e =
        ⟨FetchErrorType.connection_error, e.name ++ ": " ++ e.msg, true, none⟩) ∧
    ((e.isTimeoutError || pyContains (strLower e.msg) "timeout") = false →
      (pyContains (strLower e.msg) "dns" ||
        pyContains (strLower e.msg) "name resolution" ||
        pyContains (strLower e.msg) "getaddrinfo") = false →
      (pyContains (strLower e.msg) "ssl" ||
        pyContains (strLower e.msg) "certificate") = false →
      (pyContains (strLower e.msg) "connection" ||
        pyContains (strLower e.msg) "reset" ||
        pyContains (strLower e.msg) "refused" ||
        pyContains (strLower e.msg) "broken pipe" ||
        e.isConnectionError) = false →
      classify_error e =
        ⟨FetchErrorType.browser_error, e.name ++ ": " ++ e.msg, false, none⟩) ∧
    (status = 429 →
      (classify_http_error status).type = FetchErrorType.rate_limited ∧
      (classify_http_error status).retryable = true ∧
      (classify_http_error status).http_status = some status) ∧
    (400 ≤ status → status ≠ 429 →
      (classify_http_error status).type = FetchErrorType.http_error ∧
      ((classify_http_error status).retryable = true ↔
        status = 502 ∨ status = 503 ∨ status = 504) ∧
      (classify_http_error status).http_status = some status) := by
  refine ⟨?_, ?_, ?_, ?_, ?_, ?_, ?_⟩
  · intro h1
    simp [classify_error, h1]
  · intro h1 h2
    simp [classify_error, h1, h2]
  · intro h1 h2 h3
    simp [classify_error, h1, h2, h3]
  · intro h1 h2 h3 h4
    simp [classify_error, h1, h2, h3, h4]
  · intro h1 h2 h3 h4
    simp [classify_error, h1, h2, h3, h4]
  · intro h
    subst h
    exact ⟨rfl, rfl, rfl⟩
  · intro _ hne
    refine ⟨?_, ?_, ?_⟩
    · simp [classify_http_error, hne]
    · simp only [classify_http_error, if_neg hne, retryableStatusCodes]
      rw [List.contains_eq_any_beq]
      simp only [List.any_cons, List.any_nil, Bool.or_eq_true, beq_iff_eq,
        Bool.false_eq_true, or_false]
      omega
    · simp [classify_http_error, hne]

/-- Witness for C5: a timeout exception is classified retryable timeout,
and HTTP 404 is a non-retryable http_error. -/
theorem C5_error_classification_witness :
    (classify_error
      ⟨"TimeoutError", "Navigation timeout", true, false⟩).type =
        FetchErrorType.timeout ∧
    (classify_error
      ⟨"TimeoutError", "Navigation timeout", true, false⟩).retryable = true ∧
    (classify_http_error 404).type = FetchErrorType.http_error ∧
    (classify_http_error 404).retryable = false := by
  have h := C5_error_classification
    ⟨"TimeoutError", "Navigation timeout", true, false⟩ 404
  have h1 := h.1 (by decide)
  have h7 := h.2.2.2.2.2.2 (by norm_num) (by norm_num)
  refine ⟨?_, ?_, h7.1, ?_⟩
  · rw [h1]
  · rw [h1]
  · cases hb : (classify_http_error 404).retryable with
    | false => rfl
    | true =>
      have := h7.2.1.mp hb
      omega

/-! ## Claim theorems: fetcher entry checks -/

/-- C9: when the browser context has not been started, PageFetcher.fetch
returns a non-retryable browser_error with status_code 0 for every URL,
valid or not (the connection check precedes URL validation), performing
no attempt and no sleep. -/
theorem C9_browser_not_started (url : String) (maxRetries : Nat)
    (outcomes : Nat → FetchResult) :
    PageFetcher.fetch false url maxRetries outcomes =
      ⟨browserNotStartedResult url, 0, []⟩ ∧
    (browserNotStartedResult url).status_code = 0 ∧
    (browserNotStartedResult url).error =
      some ⟨FetchErrorType.browser_error, "Browser not started", false, none⟩ :=
  ⟨rfl, rfl, rfl⟩

/-! ## Retry loop lemmas -/

theorem retryGo_stop_shape (outcomes : Nat → FetchResult) (maxRetries : Nat)
    (attempt fuel : Nat) (hstop : maxRetries ≤ attempt) :
    retryGo outcomes maxRetries attempt (fuel + 1) =
      ⟨outcomes attempt, 1,
        if attempt = 0 then [] else [2 ^ (attempt - 1)]⟩ := by
  simp only [retryGo]
  split_ifs with h1 h2 h3 <;> first | rfl | omega

theorem range_one_filterMap (attempt : Nat) :
    (List.range 1).filterMap
      (fun i => if attempt + i = 0 then none
        else some (2 ^ (attempt + i - 1))) =
      if attempt = 0 then [] else [2 ^ (attempt - 1)] := by
  by_cases h : attempt = 0 <;> simp [h, List.range_succ, List.filterMap_cons]

theorem retryGo_spec (outcomes : Nat → FetchResult) (maxRetries : Nat) :
    ∀ fuel attempt, attempt + fuel = maxRetries →
      RetryRunSpec outcomes maxRetries attempt
        (retryGo outcomes maxRetries attempt (fuel + 1)) := by
  intro fuel
  induction fuel with
  | zero =>
    intro attempt hinv
    have hstop : maxRetries ≤ attempt := by omega
    rw [retryGo_stop_shape outcomes maxRetries attempt 0 hstop]
    dsimp only [RetryRunSpec]
    refine ⟨le_refl 1, by omega, by simp, ?_,
      fun i hi => absurd hi (by omega), Or.inl (by omega)⟩
    rw [range_one_filterMap]
  | succ fuel ih =>
    intro attempt hinv
    have hlt : attempt < maxRetries := by omega
    by_cases herr : (outcomes attempt).error.isNone = true
    · have hshape : retryGo outcomes maxRetries attempt (fuel + 1 + 1) =
          ⟨outcomes attempt, 1,
            if attempt = 0 then [] else [2 ^ (attempt - 1)]⟩ := by
        simp only [retryGo]
        rw [if_pos herr]
      rw [hshape]
      dsimp only [RetryRunSpec]
      refine ⟨le_refl 1, by omega, by simp, ?_,
        fun i hi => absurd hi (by omega),
        Or.inr (Or.inl (Option.isNone_iff_eq_none.mp herr))⟩
      rw [range_one_filterMap]
    · by_cases hret : (!errRetryable (outcomes attempt)) = true
      · have hshape : retryGo outcomes maxRetries attempt (fuel + 1 + 1) =
            ⟨outcomes attempt, 1,
              if attempt = 0 then [] else [2 ^ (attempt - 1)]⟩ := by
          simp only [retryGo]
          rw [if_neg (by simp [herr]), if_pos hret]
        rw [hshape]
        dsimp only [RetryRunSpec]
        refine ⟨le_refl 1, by omega, by simp, ?_,
          fun i hi => absurd hi (by omega),
          Or.inr (Or.inr (by simpa using hret))⟩
        rw [range_one_filterMap]
      · have hnotstop : ¬ maxRetries ≤ attempt := by omega
        have hshape : retryGo outcomes maxRetries attempt (fuel + 1 + 1) =
            ⟨(retryGo outcomes maxRetries (attempt + 1) (fuel + 1)).result,
             (retryGo outcomes maxRetries (attempt + 1) (fuel + 1)).attempts + 1,
             (if attempt = 0 then [] else [2 ^ (attempt - 1)]) ++
               (retryGo outcomes maxRetries (attempt + 1) (fuel + 1)).sleeps⟩ := by
          simp only [retryGo]
          rw [if_neg (by simp [herr]), if_neg hret, if_neg hnotstop]
        have hrest := ih (attempt + 1) (by omega)
        obtain ⟨h1, h2, h3, h4, h5, h6⟩ := hrest
        rw [hshape]
        dsimp only [RetryRunSpec]
        set rest := retryGo outcomes maxRetries (attempt + 1) (fuel + 1) with hrdef
        refine ⟨by omega, by show attempt + (rest.attempts + 1) ≤ maxRetries + 1; omega, ?_, ?_, ?_, ?_⟩
        · show rest.result = outcomes (attempt + (rest.attempts + 1) - 1)
          rw [h3]
          congr 1
          omega
        · show (if attempt = 0 then [] else [2 ^ (attempt - 1)]) ++ rest.sleeps =
            (List.range (rest.attempts + 1)).filterMap
              (fun i => if attempt + i = 0 then none
                else some (2 ^ (attempt + i - 1)))
          rw [List.range_succ_eq_map, List.filterMap_cons]
          have htail : (List.filterMap
              (fun i => if attempt + i = 0 then none
                else some (2 ^ (attempt + i - 1)))
              ((List.range rest.attempts).map Nat.succ)) = rest.sleeps := by
            rw [List.filterMap_map, h4]
            apply List.filterMap_congr
            intro i _
            have e1 : attempt + Nat.succ i = attempt + 1 + i := by omega
            have e2 : attempt + Nat.succ i - 1 = attempt + 1 + i - 1 := by omega
            simp only [Function.comp, e1, e2]
          by_cases ha : attempt = 0
          · subst ha
            simp only [Nat.add_zero, if_pos rfl, htail]
            simp
          · simp only [Nat.add_zero, if_neg ha, htail]
            simp
        · intro i hi
          cases i with
          | zero =>
            constructor
            · rw [Nat.add_zero]
              cases hv : (outcomes attempt).error with
              | none => rw [hv] at herr; simp at herr
              | some _ => simp
            · rw [Nat.add_zero]
              cases hv : errRetryable (outcomes attempt) with
              | false => rw [hv] at hret; simp at hret
              | true => rfl
          | succ j =>
            have := h5 j (by omega)
            constructor
            · have e : attempt + (j + 1) = attempt + 1 + j := by omega
              rw [e]
              exact this.1
            · have e : attempt + (j + 1) = attempt + 1 + j := by omega
              rw [e]
              exact this.2
        · have e : attempt + (rest.attempts + 1) = attempt + 1 + rest.attempts := by
            omega
          rw [e]
          exact h6

/-- C4: for every retry budget R and every sequence of attempt outcomes,
PageFetcher.fetch invokes the single-attempt executor at most R + 1
times (and at least once), sleeps 2^(k-1) seconds before attempt k for
every performed attempt k > 0, stops only on success, on a non-retryable
error, or with the budget exhausted (every earlier attempt having failed
retryably), and returns the last attempt's result. -/
theorem C4_retry_orchestration (url : String) (maxRetries : Nat)
    (outcomes : Nat → FetchResult)
    (hscheme : urlScheme url ≠ "") (hnetloc : urlNetloc url ≠ "") :
    1 ≤ (PageFetcher.fetch true url maxRetries outcomes).attempts ∧
    (PageFetcher.fetch true url maxRetries outcomes).attempts ≤ maxRetries + 1 ∧
    (PageFetcher.fetch true url maxRetries outcomes).result =
      outcomes ((PageFetcher.fetch true url maxRetries outcomes).attempts - 1) ∧
    (PageFetcher.fetch true url maxRetries outcomes).sleeps =
      (List.range (PageFetcher.fetch true url maxRetries outcomes).attempts).filterMap
        (fun k => if k = 0 then none else some (2 ^ (k - 1))) ∧
    (∀ i, i + 1 < (PageFetcher.fetch true url maxRetries outcomes).attempts →
      (outcomes i).error.isSome = true ∧ errRetryable (outcomes i) = true) ∧
    ((PageFetcher.fetch true url maxRetries outcomes).attempts = maxRetries + 1 ∨
      (outcomes ((PageFetcher.fetch true url maxRetries outcomes).attempts - 1)).error
        = none ∨
      errRetryable
        (outcomes ((PageFetcher.fetch true url maxRetries outcomes).attempts - 1))
        = false) := by
  have hfetch : PageFetcher.fetch true url maxRetries outcomes =
      retryRun outcomes maxRetries := by
    simp only [PageFetcher.fetch, Bool.not_true]
    rw [if_neg (by simp), if_neg (by simp [hscheme, hnetloc])]
  have hspec := retryGo_spec outcomes maxRetries maxRetries 0 (by omega)
  rw [hfetch]
  obtain ⟨h1, h2, h3, h4, h5, h6⟩ := hspec
  simp only [Nat.zero_add] at h1 h2 h3 h4 h5 h6
  exact ⟨h1, h2, h3, h4, fun i hi => h5 i hi, h6⟩

/-- Witness for C4: a fetcher that always times out with MAX_RETRIES = 2
performs 3 attempts with backoff sleeps 1 s and 2 s. -/
theorem C4_retry_orchestration_witness :
    (PageFetcher.fetch true "https://example.com" 2
      (fun _ => timeoutAttempt)).attempts ≤ 3 ∧
    (PageFetcher.fetch true "https://example.com" 2
      (fun _ => timeoutAttempt)).attempts = 3 ∧
    (PageFetcher.fetch true "https://example.com" 2
      (fun _ => timeoutAttempt)).sleeps = [1, 2] := by
  have h := C4_retry_orchestration "https://example.com" 2
    (fun _ => timeoutAttempt) (by decide) (by decide)
  refine ⟨h.2.1, ?_, ?_⟩
  · rfl
  · rfl

/-! ## Pipeline lemmas -/

theorem storeEvents_shape (cacheFlag : Bool) (k : String)
    (resp : FetchResponse) :
    storeEvents cacheFlag k resp = [] ∨
    storeEvents cacheFlag k resp = [Event.cacheSet k resp] := by
  cases cacheFlag with
  | false => exact Or.inl rfl
  | true => exact Or.inr rfl

set_option maxHeartbeats 1000000 in
theorem afterFetch_events (env : PipelineEnv) (request : FetchRequest)
    (k : String) :
    (afterFetch env request k).2 = [] ∨
    ∃ resp, (afterFetch env request k).2 = [Event.cacheSet k resp] := by
  have hgen : ∀ R : FetchResponse,
      storeEvents request.cache k R = [] ∨
      ∃ resp, storeEvents request.cache k R = [Event.cacheSet k resp] := by
    intro R
    rcases storeEvents_shape request.cache k R with h | h
    · exact Or.inl h
    · exact Or.inr ⟨R, h⟩
  unfold afterFetch
  dsimp only
  split_ifs <;> first | exact Or.inl rfl | exact hgen _

theorem mem_storeEvents (c : Bool) (k key : String) (r resp : FetchResponse)
    (h : Event.cacheSet key resp ∈ storeEvents c k r) : resp = r := by
  cases c with
  | false => exact absurd h (List.not_mem_nil _)
  | true =>
    obtain ⟨-, h2⟩ := Event.cacheSet.inj (List.mem_singleton.mp h)
    exact h2

theorem afterFetch_countP_zero (env : PipelineEnv) (request : FetchRequest)
    (k : String) (p : Event → Bool)
    (hp : ∀ key resp, p (Event.cacheSet key resp) = false) :
    (afterFetch env request k).2.countP p = 0 := by
  rcases afterFetch_events env request k with h | ⟨resp, h⟩ <;> rw [h]
  · rfl
  · simp [List.countP_cons, hp]

set_option maxHeartbeats 1000000 in
theorem afterFetch_stores_not_cached (env : PipelineEnv)
    (request : FetchRequest) (k : String) :
    ∀ key resp, Event.cacheSet key resp ∈ (afterFetch env request k).2 →
      resp.cached = false := by
  intro key resp hmem
  unfold afterFetch at hmem
  dsimp only at hmem
  split_ifs at hmem <;>
    first
      | exact absurd hmem (List.not_mem_nil _)
      | (rw [mem_storeEvents _ _ _ _ _ hmem]; try rfl)

theorem _do_fetch_hit (env : PipelineEnv) (request : FetchRequest)
    (entry : FetchResponse) (hc : request.cache = true)
    (hs : env.store (fetchCacheKey request) = some entry) :
    _do_fetch env request =
      ({ entry with cached := true },
       [Event.cacheGet (fetchCacheKey request)]) := by
  unfold _do_fetch
  rw [if_pos hc, hs]

theorem _do_fetch_miss (env : PipelineEnv) (request : FetchRequest)
    (hc : request.cache = true)
    (hs : env.store (fetchCacheKey request) = none) :
    _do_fetch env request =
      ((afterFetch env request (fetchCacheKey request)).1,
       Event.cacheGet (fetchCacheKey request) :: Event.fetchNav request.url ::
         (afterFetch env request (fetchCacheKey request)).2) := by
  unfold _do_fetch
  rw [if_pos hc, hs]

theorem _do_fetch_nocache (env : PipelineEnv) (request : FetchRequest)
    (hc : request.cache = false) :
    _do_fetch env request =
      ((afterFetch env request (fetchCacheKey request)).1,
       Event.fetchNav request.url ::
         (afterFetch env request (fetchCacheKey request)).2) := by
  unfold _do_fetch
  rw [if_neg (by simp [hc])]

theorem _do_fetch_stores_not_cached (env : PipelineEnv)
    (request : FetchRequest) :
    ∀ key resp, Event.cacheSet key resp ∈ (_do_fetch env request).2 →
      resp.cached = false := by
  intro key resp hmem
  cases hc : request.cache with
  | true =>
    cases hs : env.store (fetchCacheKey request) with
    | some entry =>
      rw [_do_fetch_hit env request entry hc hs] at hmem
      simp at hmem
    | none =>
      rw [_do_fetch_miss env request hc hs] at hmem
      simp only [List.mem_cons] at hmem
      rcases hmem with h | h | h
      · exact absurd h (by simp)
      · exact absurd h (by simp)
      · exact afterFetch_stores_not_cached env request _ key resp h
  | false =>
    rw [_do_fetch_nocache env request hc] at hmem
    simp only [List.mem_cons] at hmem
    rcases hmem with h | h
    · exact absurd h (by simp)
    · exact afterFetch_stores_not_cached env request _ key resp h

/-! ## Claim theorems: pipeline -/

/-- C1 counterexample: on a cache miss the pipeline navigates without
ever acquiring a rate-limit token or consulting the Robots Oracle: its
effect trace for a concrete request contains one navigation and no
rate-limit or robots event at all. -/
theorem C1_counterexample :
    (_do_fetch (sampleEnv (fun _ => none) sampleHtmlResult)
      { url := "https://example.com" }).2.countP Event.isRobotsCheck = 0 ∧
    (_do_fetch (sampleEnv (fun _ => none) sampleHtmlResult)
      { url := "https://example.com" }).2.countP Event.isRateAcquire = 0 ∧
    (_do_fetch (sampleEnv (fun _ => none) sampleHtmlResult)
      { url := "https://example.com" }).2.countP Event.isFetchNav = 1 :=
  ⟨rfl, rfl, rfl⟩

/-- C1 (amended): _do_fetch performs no rate-limit acquisition and no
robots consultation for any request; on a cache miss (or with caching
disabled) it proceeds directly from the cache lookup to navigation, so a
URL that robots.txt would deny is navigated anyway. -/
theorem C1_no_robots_no_rate (env : PipelineEnv) (request : FetchRequest) :
    (_do_fetch env request).2.countP Event.isRateAcquire = 0 ∧
    (_do_fetch env request).2.countP Event.isRobotsCheck = 0 ∧
    (request.cache = true → env.store (fetchCacheKey request) = none →
      (_do_fetch env request).2 =
        Event.cacheGet (fetchCacheKey request) :: Event.fetchNav request.url ::
          (afterFetch env request (fetchCacheKey request)).2) ∧
    (request.cache = false →
      (_do_fetch env request).2 =
        Event.fetchNav request.url ::
          (afterFetch env request (fetchCacheKey request)).2) := by
  refine ⟨?_, ?_, ?_, ?_⟩
  · cases hc : request.cache with
    | true =>
      cases hs : env.store (fetchCacheKey request) with
      | some entry => rw [_do_fetch_hit env request entry hc hs]; rfl
      | none =>
        rw [_do_fetch_miss env request hc hs]
        simp only [List.countP_cons, Event.isRateAcquire]
        rw [afterFetch_countP_zero env request _ _ (fun _ _ => rfl)]
        simp
    | false =>
      rw [_do_fetch_nocache env request hc]
      simp only [List.countP_cons, Event.isRateAcquire]
      rw [afterFetch_countP_zero env request _ _ (fun _ _ => rfl)]
      simp
  · cases hc : request.cache with
    | true =>
      cases hs : env.store (fetchCacheKey request) with
      | some entry => rw [_do_fetch_hit env request entry hc hs]; rfl
      | none =>
        rw [_do_fetch_miss env request hc hs]
        simp only [List.countP_cons, Event.isRobotsCheck]
        rw [afterFetch_countP_zero env request _ _ (fun _ _ => rfl)]
        simp
    | false =>
      rw [_do_fetch_nocache env request hc]
      simp only [List.countP_cons, Event.isRobotsCheck]
      rw [afterFetch_countP_zero env request _ _ (fun _ _ => rfl)]
      simp
  · intro hc hs
    rw [_do_fetch_miss env request hc hs]
  · intro hc
    rw [_do_fetch_nocache env request hc]

/-- Witness for the amended C1: the concrete miss trace is the cache
lookup followed directly by the navigation. -/
theorem C1_no_robots_no_rate_witness :
    (_do_fetch (sampleEnv (fun _ => none) sampleHtmlResult)
      { url := "https://example.com" }).2 =
      Event.cacheGet (fetchCacheKey { url := "https://example.com" }) ::
        Event.fetchNav "https://example.com" ::
        (afterFetch (sampleEnv (fun _ => none) sampleHtmlResult)
          { url := "https://example.com" }
          (fetchCacheKey { url := "https://example.com" })).2 :=
  (C1_no_robots_no_rate (sampleEnv (fun _ => none) sampleHtmlResult)
    { url := "https://example.com" }).2.2.1 rfl rfl

/-- C6: when caching is requested and the key has a stored entry, the
pipeline returns that entry with its cached flag forced to true and
performs no navigation; and every entry the pipeline ever stores carries
cached = false. -/
theorem C6_cache_hit (env : PipelineEnv) (request : FetchRequest)
    (entry : FetchResponse) (hc : request.cache = true)
    (hs : env.store (fetchCacheKey request) = some entry) :
    (_do_fetch env request).1 = { entry with cached := true } ∧
    (_do_fetch env request).2 = [Event.cacheGet (fetchCacheKey request)] ∧
    (_do_fetch env request).2.countP Event.isFetchNav = 0 ∧
    ∀ env2 req2 key resp,
      Event.cacheSet key resp ∈ (_do_fetch env2 req2).2 →
        resp.cached = false := by
  rw [_do_fetch_hit env request entry hc hs]
  exact ⟨rfl, rfl, rfl, fun env2 req2 => _do_fetch_stores_not_cached env2 req2⟩

/-- Witness for C6: a concrete stored entry is returned with cached set
to true, from a trace containing only the cache lookup. -/
theorem C6_cache_hit_witness :
    (_do_fetch (sampleEnv (fun _ => some sampleStoredResponse) sampleHtmlResult)
      { url := "https://example.com" }).1 =
      { sampleStoredResponse with cached := true } ∧
    (_do_fetch (sampleEnv (fun _ => some sampleStoredResponse) sampleHtmlResult)
      { url := "https://example.com" }).2.countP Event.isFetchNav = 0 := by
  have h := C6_cache_hit
    (sampleEnv (fun _ => some sampleStoredResponse) sampleHtmlResult)
    { url := "https://example.com" } sampleStoredResponse rfl rfl
  exact ⟨h.1, h.2.2.1⟩

theorem pyLenOrZero_some (s : String) : pyLenOrZero (some s) = s.length := by
  show (if s.data.isEmpty then 0 else s.length) = s.length
  cases h : s.data with
  | nil =>
    have hlen : s.length = 0 := by
      show s.data.length = 0
      rw [h]
      rfl
    rw [hlen]
    rfl
  | cons c cs => rfl

/-- C10: on a successful HTML fetch the returned content_length is the
length of the extracted content_text when extract_text is requested and
0 when it is not, regardless of the other extraction flags; it never
measures the raw HTML. -/
theorem C10_content_length (env : PipelineEnv) (request : FetchRequest)
    (hmiss : request.cache = false ∨ env.store (fetchCacheKey request) = none)
    (herr : env.fetchResult.error = none)
    (hct : env.fetchResult.content_type = "text/html") :
    (request.extract_text = true →
      (_do_fetch env request).1.content_text =
        some (env.extractText env.fetchResult.html) ∧
      (_do_fetch env request).1.content_length =
        (env.extractText env.fetchResult.html).length) ∧
    (request.extract_text = false →
      (_do_fetch env request).1.content_text = none ∧
      (_do_fetch env request).1.content_length = 0) := by
  have hfst : (_do_fetch env request).1 =
      (afterFetch env request (fetchCacheKey request)).1 := by
    rcases hmiss with hc | hs
    · rw [_do_fetch_nocache env request hc]
    · cases hc : request.cache with
      | true => rw [_do_fetch_miss env request hc hs]
      | false => rw [_do_fetch_nocache env request hc]
  rw [hfst]
  unfold afterFetch
  dsimp only
  rw [if_neg (by simp [herr]),
    if_neg (fun h => by rw [hct] at h; exact absurd h.1 (by decide)),
    if_neg (by rw [hct]; decide),
    if_neg (by rw [hct]; decide),
    if_neg (by rw [hct]; decide)]
  constructor
  · intro hext
    rw [hext]
    exact ⟨rfl, by simp [pyLenOrZero_some]⟩
  · intro hext
    rw [hext]
    exact ⟨rfl, rfl⟩

/-- Witness for C10: with text extraction on, content_length is the
extracted text's length; with it off, content_length is 0. -/
theorem C10_content_length_witness :
    (_do_fetch (sampleEnv (fun _ => none) sampleHtmlResult)
      { url := "https://example.com" }).1.content_length =
      ("<html><body>Hello</body></html>" : String).length ∧
    (_do_fetch (sampleEnv (fun _ => none) sampleHtmlResult)
      { url := "https://example.com", extract_text := false
        }).1.content_length = 0 := by
  have h1 := (C10_content_length (sampleEnv (fun _ => none) sampleHtmlResult)
    { url := "https://example.com" } (Or.inr rfl) rfl rfl).1 rfl
  have h2 := (C10_content_length (sampleEnv (fun _ => none) sampleHtmlResult)
    { url := "https://example.com", extract_text := false }
    (Or.inr rfl) rfl rfl).2 rfl
  exact ⟨h1.2, h2.2⟩

/-! ## Claim theorems: robots handler -/

theorem lookupMem_append_self (m : List (String × Ruleset)) (origin : String)
    (p : Ruleset) (h : lookupMem m origin = none) :
    lookupMem (m ++ [(origin, p)]) origin = some p := by
  induction m with
  | nil => simp [lookupMem]
  | cons kv rest ih =>
    by_cases hk : kv.1 = origin
    · exfalso
      unfold lookupMem at h
      rw [List.find?_cons_of_pos _ (by simp [hk])] at h
      simp at h
    · unfold lookupMem at h ⊢
      rw [List.find?_cons_of_neg _ (by simp [hk])] at h
      rw [List.cons_append, List.find?_cons_of_neg _ (by simp [hk])]
      exact ih h

theorem parseRobots_empty_line : parseRobots [""] = ⟨[], none⟩ := rfl

theorem allowAll_can_fetch (agent url : String) :
    (parseRobots [""]).can_fetch agent url = true := rfl

/-- C7 counterexample: when the robots.txt fetch raises (origin
unreachable), _get_ruleset returns null and stores nothing in the
in-process cache — the claimed allow-all record is absent — although
can_fetch still fails open to true. -/
theorem C7_counterexample :
    (_get_ruleset robotsEnvExc ⟨[]⟩ "https://example.com").1 = none ∧
    (_get_ruleset robotsEnvExc ⟨[]⟩ "https://example.com").2.memory_cache = [] ∧
    RobotsHandler.can_fetch robotsEnvExc ⟨[]⟩ true "Cortex-Iris/1.0"
      "https://example.com/anything" = (true, ⟨[]⟩) :=
  ⟨rfl, rfl, rfl⟩

/-- C7 (amended): a missing robots.txt (non-200 response) is fail-open
and stores an allow-all parsed record in the in-process cache, so later
calls for the origin are answered from the cache no matter what the
network would do; an unreachable robots.txt (fetch error) is fail-open
but stores nothing, so later calls fetch again. -/
theorem C7_robots_failure_handling (env : RobotsEnv) (st : RobotsState)
    (origin : String)
    (hmem : lookupMem st.memory_cache origin = none)
    (hredis : redisRobots env origin = none) :
    (∀ status text,
      env.http (origin ++ "/robots.txt") = HttpOutcome.resp status text →
      status ≠ 200 →
      _get_ruleset env st origin =
        (some (parseRobots [""]),
         ⟨st.memory_cache ++ [(origin, parseRobots [""])]⟩) ∧
      (∀ agent url, (parseRobots [""]).can_fetch agent url = true) ∧
      (∀ env2 : RobotsEnv, _get_ruleset env2
          ⟨st.memory_cache ++ [(origin, parseRobots [""])]⟩ origin =
        (some (parseRobots [""]),
         ⟨st.memory_cache ++ [(origin, parseRobots [""])]⟩))) ∧
    (∀ msg, env.http (origin ++ "/robots.txt") = HttpOutcome.exc msg →
      _get_ruleset env st origin = (none, st)) := by
  constructor
  · intro status text hhttp hne
    refine ⟨?_, fun agent url => allowAll_can_fetch agent url, ?_⟩
    · unfold _get_ruleset
      rw [hmem, hredis, hhttp]
      dsimp only
      rw [if_pos hne]
    · intro env2
      unfold _get_ruleset
      rw [lookupMem_append_self st.memory_cache origin (parseRobots [""]) hmem]
  · intro msg hhttp
    unfold _get_ruleset
    rw [hmem, hredis, hhttp]

/-- Witness for the amended C7: a 404 robots.txt yields a cached
allow-all record for the origin, which answers a second call even
against an environment whose network would now fail. -/
theorem C7_robots_failure_handling_witness :
    _get_ruleset robotsEnv404 ⟨[]⟩ "https://example.com" =
      (some (parseRobots [""]),
       ⟨[("https://example.com", parseRobots [""])]⟩) ∧
    (parseRobots [""]).can_fetch "Cortex-Iris/1.0" "https://example.com/x" =
      true ∧
    _get_ruleset robotsEnvExc
        ⟨[("https://example.com", parseRobots [""])]⟩ "https://example.com" =
      (some (parseRobots [""]),
       ⟨[("https://example.com", parseRobots [""])]⟩) := by
  have h := C7_robots_failure_handling robotsEnv404 ⟨[]⟩ "https://example.com"
    rfl rfl
  have h1 := h.1 404 "" rfl (by norm_num)
  exact ⟨h1.1, h1.2.1 "Cortex-Iris/1.0" "https://example.com/x",
    h1.2.2 robotsEnvExc⟩

/-! ## Claim theorems: structured data -/

theorem sortedInsertUniq_mem (x : String) :
    ∀ l z, z ∈ sortedInsertUniq x l → z = x ∨ z ∈ l := by
  intro l
  induction l with
  | nil =>
    intro z hz
    simp [sortedInsertUniq] at hz
    exact Or.inl hz
  | cons y ys ih =>
    intro z hz
    unfold sortedInsertUniq at hz
    split_ifs at hz with h1 h2
    · rcases List.mem_cons.mp hz with hz | hz
      · exact Or.inl hz
      · exact Or.inr hz
    · exact Or.inr hz
    · rcases List.mem_cons.mp hz with hz | hz
      · exact Or.inr (by rw [hz]; exact List.mem_cons_self y ys)
      · rcases ih z hz with hz2 | hz2
        · exact Or.inl hz2
        · exact Or.inr (List.mem_cons_of_mem y hz2)

theorem sortedInsertUniq_pairwise (x : String) :
    ∀ l, l.Pairwise (fun a b => strLt a b = true) →
      (sortedInsertUniq x l).Pairwise (fun a b => strLt a b = true) := by
  intro l
  induction l with
  | nil => intro _; simp [sortedInsertUniq]
  | cons y ys ih =>
    intro hp
    rw [List.pairwise_cons] at hp
    obtain ⟨hy, hys⟩ := hp
    unfold sortedInsertUniq
    split_ifs with h1 h2
    · rw [List.pairwise_cons]
      constructor
      · intro z hz
        rcases List.mem_cons.mp hz with hz | hz
        · rw [hz]; exact h1
        · exact strLt_trans x y z h1 (hy z hz)
      · rw [List.pairwise_cons]
        exact ⟨hy, hys⟩
    · rw [List.pairwise_cons]
      exact ⟨hy, hys⟩
    · rw [List.pairwise_cons]
      constructor
      · intro z hz
        rcases sortedInsertUniq_mem x ys z hz with hz2 | hz2
        · rw [hz2]
          exact strLt_of_le_of_ne y x
            (by cases h : strLt x y with
              | true => exact absurd h h1
              | false => rfl)
            (fun he => h2 he.symm)
        · exact hy z hz2
      · exact ih hys

theorem sortUniq_pairwise (l : List String) :
    (sortUniq l).Pairwise (fun a b => strLt a b = true) := by
  induction l with
  | nil => simp [sortUniq]
  | cons a l ih => exact sortedInsertUniq_pairwise a (sortUniq l) ih

/-- C2: structured-data extraction silently skips malformed JSON-LD
blocks, flattens top-level arrays into the JSON-LD list, produces a
schema_org_types list that is strictly ascending (sorted and
duplicate-free), and returns null when the page has no structured data. -/
theorem C2_structured_data :
    (∀ blocks itemtypes sd ts,
      extract_structured_data blocks itemtypes = some sd →
      sd.schema_org_types = some ts →
      ts.Pairwise (fun a b => strLt a b = true)) ∧
    (∀ blocks itemtypes,
      extract_structured_data (none :: blocks) itemtypes =
        extract_structured_data blocks itemtypes) ∧
    (∀ l blocks,
      jsonLdFlatten (some (Json.arr l) :: blocks) = l ++ jsonLdFlatten blocks) ∧
    (∀ blocks, (∀ b ∈ blocks, b = none) →
      extract_structured_data blocks [] = none) := by
  refine ⟨?_, ?_, ?_, ?_⟩
  · intro blocks itemtypes sd ts h1 h2
    unfold extract_structured_data at h1
    dsimp only at h1
    have hts : ts = sortUniq ((jsonLdFlatten blocks).flatMap typesOfJson ++
        itemtypes.map leafName) := by
      by_cases hc : (jsonLdFlatten blocks).isEmpty = true ∧
          (sortUniq ((jsonLdFlatten blocks).flatMap typesOfJson ++
            itemtypes.map leafName)).isEmpty = true
      · rw [if_pos hc] at h1
        exact absurd h1 (by simp)
      · rw [if_neg hc] at h1
        obtain rfl := Option.some.inj h1
        dsimp only at h2
        by_cases hB : (sortUniq ((jsonLdFlatten blocks).flatMap typesOfJson ++
            itemtypes.map leafName)).isEmpty = true
        · rw [if_pos hB] at h2
          exact absurd h2 (by simp)
        · rw [if_neg hB] at h2
          exact (Option.some.inj h2).symm
    rw [hts]
    exact sortUniq_pairwise _
  · intro blocks itemtypes
    unfold extract_structured_data jsonLdFlatten
    rw [List.filterMap_cons_none rfl]
  · intro l blocks
    unfold jsonLdFlatten
    simp [List.filterMap_cons]
  · intro blocks hall
    unfold extract_structured_data jsonLdFlatten
    have hnil : blocks.filterMap id = [] := by
      rw [List.filterMap_eq_nil]
      intro a ha
      rw [hall a ha]
      rfl
    rw [hnil]
    rfl

/-- Witness for C2: a page with one JSON-LD Article block and a Product
microdata itemtype yields a sorted duplicate-free type list, a malformed
block changes nothing, and an empty page yields null. -/
theorem C2_structured_data_witness :
    extract_structured_data [some (Json.obj [("@type", Json.str "Article")])]
        ["https://schema.org/Product"] =
      some { json_ld := some [Json.obj [("@type", Json.str "Article")]],
             schema_org_types := some ["Article", "Product"] } ∧
    (["Article", "Product"] : List String).Pairwise
      (fun a b => strLt a b = true) ∧
    extract_structured_data
        (none :: [some (Json.obj [("@type", Json.str "Article")])])
        ["https://schema.org/Product"] =
      extract_structured_data [some (Json.obj [("@type", Json.str "Article")])]
        ["https://schema.org/Product"] ∧
    extract_structured_data [none, none] [] = none := by
  refine ⟨rfl, ?_, ?_, ?_⟩
  · exact C2_structured_data.1 [some (Json.obj [("@type", Json.str "Article")])]
      ["https://schema.org/Product"] _ _ rfl rfl
  · exact C2_structured_data.2.1 [some (Json.obj [("@type", Json.str "Article")])]
      ["https://schema.org/Product"]
  · exact C2_structured_data.2.2.2 [none, none] (by intro b hb; simpa using hb)

end Iris
